import Mathlib

/-!
Verification development for the Plurk image backup tool core
(`core/parser.py`, `core/downloader.py`, `core/processor.py`).

The Python source is shallowly embedded: pure string processing is
translated into executable Lean functions over `List Char`; the two
library calls `json.loads` and `datetime.strptime` are taken as function
parameters (`decode`, `strptime`); the filesystem, HTTP layer and the
module-level consecutive-failure dictionary are threaded explicitly as
state.  Sleeps (`time.sleep`) are not modelled: no claim below concerns
wall-clock delay, only which counters change and which outcome is
returned.
-/

namespace PlurkBackup

/-! ### JSON values (shape of what `json.loads` can produce) -/

inductive JVal where
  | jnull
  | jbool (b : Bool)
  | jnum (n : Int)
  | jstr (s : String)
  | jarr (xs : List JVal)
  | jobj (fields : List (String × JVal))

/-- Python truthiness of a JSON value (`if not x` / `x or ""`). -/
def jFalsy : JVal → Bool
  | .jnull => true
  | .jbool b => !b
  | .jnum n => n == 0
  | .jstr s => s == ""
  | .jarr xs => xs.isEmpty
  | .jobj f => f.isEmpty

/-- Python `dict.get(key, default)` on an object's field list. -/
def jGet (fields : List (String × JVal)) (k : String) (dflt : JVal) : JVal :=
  match fields.find? (fun p => p.1 == k) with
  | some p => p.2
  | none => dflt

/-- Python `x or ""` as applied to a field value in the processor. -/
def pyOrEmpty (v : JVal) : JVal := if jFalsy v then .jstr "" else v

/-- A value usable as a Python `str`; anything else raises `TypeError`
when concatenated or passed to `strptime`. -/
def asStr : JVal → Option String
  | .jstr s => some s
  | _ => none

/-- Exceptions that can escape the processor's per-record code. -/
inductive PyErr where
  | attributeErr
  | typeErr
deriving Repr, DecidableEq

/-! ### String utilities (Python `str` methods over `List Char`) -/

/-- Python `\s` for the ASCII range: space, tab, newline, CR, VT, FF. -/
def pySpace (c : Char) : Bool :=
  c == ' ' || c == '\t' || c == '\n' || c == '\r' ||
  c == Char.ofNat 11 || c == Char.ofNat 12

/-- Python `str.strip()`: drop whitespace from both ends. -/
def pyStripList (l : List Char) : List Char :=
  ((l.dropWhile pySpace).reverse.dropWhile pySpace).reverse

/-- Split a character list at the first occurrence of `ch`
(Python `s.find(ch)` plus slicing); `none` when `ch` is absent. -/
def splitAtFirst (ch : Char) : List Char → Option (List Char × List Char)
  | [] => none
  | c :: t =>
    if c == ch then some ([], t)
    else (splitAtFirst ch t).map (fun p => (c :: p.1, p.2))

/-- Python `sub in s` (substring containment). -/
def isSubstr (pat : String) (s : String) : Bool :=
  go pat.toList s.toList
where
  go (p : List Char) : List Char → Bool
    | [] => p.isEmpty
    | c :: t => p.isPrefixOf (c :: t) || go p t

/-- Python `str.lower()` (ASCII case folding suffices here). -/
def lowerStr (s : String) : String := String.mk (s.toList.map Char.toLower)

/-! ### `core/parser.py` — `parse_js_content` -/

/-- The text handed to `json.loads`: everything after the first `=` of
the stripped file text, stripped, with one trailing `;` removed and
stripped again.  `none` when the file contains no `=`. -/
def jsonPartOf (raw : String) : Option String :=
  match splitAtFirst '=' (pyStripList raw.toList) with
  | none => none
  | some (_, after) =>
    let jp := pyStripList after
    let jp := if jp.getLastD ' ' == ';' then pyStripList jp.dropLast else jp
    some (String.mk jp)

/-- `parse_js_content(file_path)`.  `fileContent = none` models an
unreadable file (`OSError`); `decode` models `json.loads`, returning
`none` on a decode error.  Every failure path returns `[]`. -/
def parse_js_content (decode : String → Option JVal) (fileContent : Option String) :
    List JVal :=
  match fileContent with
  | none => []
  | some raw =>
    match jsonPartOf raw with
    | none => []
    | some jp =>
      match decode jp with
      | some (.jarr xs) => xs
      | some _ => []
      | none => []

/-! ### `core/parser.py` — `get_all_valid_images`

The regex `https?://[^\s"'\\]+\.(?:jpg|png|gif|jpeg)` (IGNORECASE) is
implemented directly: leftmost scan, greedy backtracking body, and the
alternation tried in source order, exactly `re.findall`'s semantics for
this pattern. -/

/-- Characters admitted by the negated class `[^\s"'\\]`
(34 is the double quote, 39 the apostrophe). -/
def allowedUrlChar (c : Char) : Bool :=
  !(pySpace c || c == Char.ofNat 34 || c == Char.ofNat 39 || c == '\\')

/-- Case-insensitive literal-prefix test (`pat` given in lowercase). -/
def startsWithCI : List Char → List Char → Bool
  | [], _ => true
  | _ :: _, [] => false
  | p :: pt, c :: ct => p == c.toLower && startsWithCI pt ct

/-- Match `\.(?:jpg|png|gif|jpeg)` at the head of `cs`; returns the
number of characters consumed.  Alternatives are tried in source order. -/
def matchExtAt : List Char → Option Nat
  | [] => none
  | c :: rest =>
    if c == '.' then
      if startsWithCI ['j', 'p', 'g'] rest then some 4
      else if startsWithCI ['p', 'n', 'g'] rest then some 4
      else if startsWithCI ['g', 'i', 'f'] rest then some 4
      else if startsWithCI ['j', 'p', 'e', 'g'] rest then some 5
      else none
    else none

/-- Backtracking search for the greedy `[^...]+` repetition: try the
largest count `k` first, accept the first `k` whose remainder matches
the extension. -/
def tryBody (cs : List Char) : Nat → Option Nat
  | 0 => none
  | k + 1 =>
    match matchExtAt (cs.drop (k + 1)) with
    | some e => some (k + 1 + e)
    | none => tryBody cs k

/-- Match `[^\s"'\\]+\.(?:jpg|png|gif|jpeg)` at the head of `cs`. -/
def bodyMatch (cs : List Char) : Option Nat :=
  tryBody cs (cs.takeWhile allowedUrlChar).length

/-- Match `https?://` at the head of `cs` (greedy optional `s`). -/
def schemeMatch (cs : List Char) : Option Nat :=
  if startsWithCI "https://".toList cs then some 8
  else if startsWithCI "http://".toList cs then some 7
  else none

/-- Match the whole URL pattern at the head of `cs`. -/
def urlMatchAt (cs : List Char) : Option Nat :=
  match schemeMatch cs with
  | some s => (bodyMatch (cs.drop s)).map (fun b => s + b)
  | none => none

/-- `re.findall`: scan left to right, emit non-overlapping matches,
resume after each match.  Fuel (initially the text length) guarantees
termination; every match consumes at least one character. -/
def findallAux : Nat → List Char → List (List Char)
  | 0, _ => []
  | _ + 1, [] => []
  | fuel + 1, c :: rest =>
    match urlMatchAt (c :: rest) with
    | some n => (c :: rest).take n :: findallAux fuel ((c :: rest).drop n)
    | none => findallAux fuel rest

def findall (s : String) : List String :=
  (findallAux s.toList.length s.toList).map String.mk

/-- Python `text.replace("\\/", "/")`: left-to-right, non-overlapping. -/
def unescapeSlashes : List Char → List Char
  | [] => []
  | '\\' :: '/' :: t => '/' :: unescapeSlashes t
  | c :: t => c :: unescapeSlashes t

/-- The body of the exclusion chain in `get_all_valid_images`: `true`
when one of the `continue` branches fires.  All substring tests run on
the lowercased URL except the official-sticker regex
`PLURK_EMOJI_PATTERN.search(url)`, which the source applies to the
original, case-sensitively. -/
def excludedUrl (url : String) : Bool :=
  let low := lowerStr url
  isSubstr "emos.plurk.com" low || isSubstr "static.plurk.com" low ||
  isSubstr "avatars.plurk.com" low ||
  isSubstr "s.plurk.com/emoticons" low ||
  (isSubstr "imgs.plurk.com" low && isSubstr "_mt.jpg" low) ||
  (isSubstr "i.ytimg.com" low && isSubstr "default.jpg" low) ||
  (isSubstr "images.plurk.com" low &&
    isSubstr "https://images.plurk.com/mx_" url)

/-- One step of `valid_urls.add(url)` guarded by the exclusion chain;
the result list carries the set's elements (first-insertion order). -/
def addValid (acc : List String) (url : String) : List String :=
  if excludedUrl url then acc
  else if acc.contains url then acc
  else acc ++ [url]

/-- `get_all_valid_images(text_content)`.  Returns the member list of
the Python set `valid_urls`. -/
def get_all_valid_images (text_content : String) : List String :=
  if text_content == "" then []
  else
    let clean_text := String.mk (unescapeSlashes text_content.toList)
    (findall clean_text).foldl addValid []

/-! ### `core/downloader.py` -/

/-- Minimum file size to accept as a valid image (5KB). -/
def MIN_IMAGE_SIZE : Nat := 5120

/-- Number of consecutive failures from the same domain before backoff
triggers (the sleep itself is not modelled). -/
def REPEAT_FAIL_THRESHOLD : Nat := 3

/-- `DownloadResult` dataclass; all fields default to `False`. -/
structure DownloadResult where
  downloaded : Bool := false
  skipped : Bool := false
  exif_updated : Bool := false
  failed : Bool := false
deriving Repr, DecidableEq

/-- `url.split('/')[-1].split('?')[0]`: last path segment, query
string removed. -/
def fileNameOf (url : String) : String :=
  String.mk (((url.toList.reverse.takeWhile (fun c => c != '/')).reverse).takeWhile
    (fun c => c != '?'))

/-- What a single `requests.get` call can come back with. -/
inductive HttpResponse where
  | status (code : Nat) (bodySize : Nat)
  | timeoutErr
  | connErr
  | otherErr
deriving Repr, DecidableEq

/-- Per-call external behaviour: the HTTP layer's answer, whether the
local `open`/`write` succeeds, and what `write_exif_time` returns when
invoked (that helper never raises). -/
structure FetchEnv where
  http : HttpResponse
  writeOk : Bool
  exifResult : Bool
deriving Repr, DecidableEq

/-- `dict.get(k, 0)` on the failure dictionary. -/
def dGet (m : List (String × Nat)) (k : String) : Nat :=
  match m.find? (fun p => p.1 == k) with
  | some p => p.2
  | none => 0

/-- `d[k] = v`: replace the existing entry or insert a new one. -/
def dSet (m : List (String × Nat)) (k : String) (v : Nat) : List (String × Nat) :=
  if (m.find? (fun p => p.1 == k)).isSome then
    m.map (fun p => if p.1 == k then (k, v) else p)
  else
    (k, v) :: m

/-- Mutable state visible to `download_image`: the destination
filesystem (folder, filename) pairs and the module-level
`_domain_fail_count` dictionary. -/
structure World where
  files : List (String × String)
  fail : List (String × Nat)
deriving Repr, DecidableEq

/-- Characters allowed in a URL scheme by `urllib.parse` after the
leading letter: letters, digits, `+`, `-`, `.`. -/
def isSchemeChar (c : Char) : Bool :=
  c.isAlpha || c.isDigit || c == '+' || c == '-' || c == '.'

/-- Terminators of the netloc component: `/`, `?`, `#`. -/
def netlocEnd (c : Char) : Bool := c == '/' || c == '?' || c == '#'

/-- `_extract_domain(url)` = `urlparse(url).netloc`: strip a valid
scheme prefix up to the first `:`, then, if `//` follows, take
everything up to the next `/`, `?` or `#`; otherwise the netloc is
empty.  (`urlparse` does not raise on ordinary strings, so the
source's `except` fallback is unreachable here.) -/
def extract_domain (url : String) : String :=
  let cs := url.toList
  let rest :=
    match splitAtFirst ':' cs with
    | some (before, after) =>
      if !before.isEmpty && (before.headD ' ').isAlpha && before.all isSchemeChar then
        after
      else cs
    | none => cs
  match rest with
  | '/' :: '/' :: t => String.mk (t.takeWhile (fun c => !netlocEnd c))
  | _ => ""

/-- `_record_failure(domain)`: increment the consecutive failure count
(the threshold-triggered sleep is not modelled). -/
def record_failure (m : List (String × Nat)) (domain : String) : List (String × Nat) :=
  dSet m domain (dGet m domain + 1)

/-- `_record_success(domain)`: reset the failure count to zero. -/
def record_success (m : List (String × Nat)) (domain : String) : List (String × Nat) :=
  dSet m domain 0

/-- Result of one `download_image` call: the returned dataclass, the
state afterwards, and whether an HTTP request was issued. -/
structure DlOut where
  result : DownloadResult
  world : World
  didRequest : Bool
deriving Repr, DecidableEq

/-- `download_image(url, target_folder, dt_obj, do_exif)`.  Mirrors the
source's control flow: existing-file skip (no request), then the 429
branch, the non-200 branch, the undersized-body skip, the write (whose
`OSError` is the local-disk failure that deliberately records no domain
failure), and the success path. -/
def download_image (url : String) (target_folder : String) (do_exif : Bool)
    (env : FetchEnv) (w : World) : DlOut :=
  let file_name := fileNameOf url
  if w.files.contains (target_folder, file_name) then
    { result := { skipped := true, exif_updated := do_exif && env.exifResult },
      world := w, didRequest := false }
  else
    let domain := extract_domain url
    match env.http with
    | .status code bodySize =>
      if code == 429 then
        { result := { failed := true },
          world := { w with fail := dSet w.fail domain (dGet w.fail domain + 1) },
          didRequest := true }
      else if code != 200 then
        { result := { failed := true },
          world := { w with fail := record_failure w.fail domain },
          didRequest := true }
      else if bodySize ≤ MIN_IMAGE_SIZE then
        { result := { skipped := true }, world := w, didRequest := true }
      else if env.writeOk then
        { result := { downloaded := true, exif_updated := do_exif && env.exifResult },
          world := { files := (target_folder, file_name) :: w.files,
                     fail := record_success w.fail domain },
          didRequest := true }
      else
        { result := { failed := true }, world := w, didRequest := true }
    | .timeoutErr =>
      { result := { failed := true },
        world := { w with fail := record_failure w.fail domain }, didRequest := true }
    | .connErr =>
      { result := { failed := true },
        world := { w with fail := record_failure w.fail domain }, didRequest := true }
    | .otherErr =>
      { result := { failed := true },
        world := { w with fail := record_failure w.fail domain }, didRequest := true }

/-! ### `core/processor.py` -/

/-- `ProcessStats` dataclass; counters default to zero. -/
structure ProcessStats where
  downloaded : Nat := 0
  skipped : Nat := 0
  exif_updated : Nat := 0
  failed : Nat := 0
deriving Repr, DecidableEq

/-- `ProcessStats.merge`: counters add. -/
def ProcessStats.merge (a b : ProcessStats) : ProcessStats :=
  { downloaded := a.downloaded + b.downloaded,
    skipped := a.skipped + b.skipped,
    exif_updated := a.exif_updated + b.exif_updated,
    failed := a.failed + b.failed }

/-- What `datetime.strptime(posted, "%a, %d %b %Y %H:%M:%S GMT")`
produces on success. -/
structure PyDatetime where
  year : Nat
  month : Nat
  day : Nat
  hour : Nat
  minute : Nat
  second : Nat
deriving Repr, DecidableEq

def pad2 (n : Nat) : String := if n < 10 then "0" ++ toString n else toString n

def pad4 (n : Nat) : String :=
  if n < 10 then "000" ++ toString n
  else if n < 100 then "00" ++ toString n
  else if n < 1000 then "0" ++ toString n
  else toString n

/-- `output_root / dt.strftime("%Y-%m-%d")`. -/
def dateFolderName (output_root : String) (dt : PyDatetime) : String :=
  output_root ++ "/" ++ pad4 dt.year ++ "-" ++ pad2 dt.month ++ "-" ++ pad2 dt.day

/-- The statistics update the URL loop performs on one
`DownloadResult`: the source's `if result.downloaded / elif
result.skipped / elif result.failed` chain, then the independent
`if result.exif_updated` increment. -/
def bumpStats (r : DownloadResult) (st : ProcessStats) : ProcessStats :=
  let st1 :=
    if r.downloaded then { st with downloaded := st.downloaded + 1 }
    else if r.skipped then { st with skipped := st.skipped + 1 }
    else if r.failed then { st with failed := st.failed + 1 }
    else st
  if r.exif_updated then { st1 with exif_updated := st1.exif_updated + 1 } else st1

/-- The inner `for url in urls:` loop of `process_folder`: one
`download_image` call per URL, accumulating the outcome into `stats`. -/
def fetchUrls (oracle : String → FetchEnv) (do_exif : Bool) (folder : String) :
    List String → World → ProcessStats → ProcessStats × World
  | [], w, st => (st, w)
  | url :: rest, w, st =>
    let o := download_image url folder do_exif (oracle url) w
    fetchUrls oracle do_exif folder rest o.world (bumpStats o.result st)

/-- One iteration of `for item in items:`.  A non-dict record raises
`AttributeError` at `item.get`; a non-string `posted` raises
`TypeError` inside `strptime` (only `ValueError` — parse failure — is
caught, skipping the record); a truthy non-string `content` or
`content_raw` raises `TypeError` at string concatenation. -/
def processItem (strptime : String → Option PyDatetime) (oracle : String → FetchEnv)
    (do_exif : Bool) (output_root : String) (item : JVal) (w : World)
    (st : ProcessStats) : Except PyErr (ProcessStats × World) :=
  match item with
  | .jobj fields =>
    match jGet fields "posted" (.jstr "") with
    | .jstr posted =>
      match strptime posted with
      | none => .ok (st, w)
      | some dt =>
        let folder := dateFolderName output_root dt
        match asStr (pyOrEmpty (jGet fields "content" (.jstr ""))) with
        | none => .error .typeErr
        | some c1 =>
          match asStr (pyOrEmpty (jGet fields "content_raw" (.jstr ""))) with
          | none => .error .typeErr
          | some c2 =>
            let urls := get_all_valid_images (c1 ++ " " ++ c2)
            .ok (fetchUrls oracle do_exif folder urls w st)
    | _ => .error .typeErr
  | _ => .error .attributeErr

/-- `for item in items:` over a whole file's record list. -/
def processItems (strptime : String → Option PyDatetime) (oracle : String → FetchEnv)
    (do_exif : Bool) (output_root : String) :
    List JVal → World → ProcessStats → Except PyErr (ProcessStats × World)
  | [], w, st => .ok (st, w)
  | item :: rest, w, st =>
    match processItem strptime oracle do_exif output_root item w st with
    | .error e => .error e
    | .ok (st1, w1) => processItems strptime oracle do_exif output_root rest w1 st1

/-- The `for file_index, js_file in enumerate(js_files):` loop.  `idx`
is the running `file_index`; `prog` records every
`on_progress(file_index + 1, total_files)` invocation in order.  A
file whose parse yields no items is skipped by `continue` — before the
progress report at the end of the loop body. -/
def processFiles (decode : String → Option JVal) (strptime : String → Option PyDatetime)
    (oracle : String → FetchEnv) (do_exif : Bool) (output_root : String) (total : Nat) :
    Nat → List (Option String) → World → ProcessStats → List (Nat × Nat) →
    Except PyErr (ProcessStats × World × List (Nat × Nat))
  | _, [], w, st, prog => .ok (st, w, prog)
  | idx, fc :: rest, w, st, prog =>
    let items := parse_js_content decode fc
    if items.isEmpty then
      processFiles decode strptime oracle do_exif output_root total (idx + 1) rest w st prog
    else
      match processItems strptime oracle do_exif output_root items w st with
      | .error e => .error e
      | .ok (st1, w1) =>
        processFiles decode strptime oracle do_exif output_root total (idx + 1) rest w1 st1
          (prog ++ [(idx + 1, total)])

/-- `process_folder(source_dir, ...)` for an existing source directory:
`js_files` holds the read result of each enumerated `*.js` file
(`none` = unreadable).  Returns the final statistics, the final world,
and the sequence of `on_progress` invocations; `.error` models a
Python exception escaping the call. -/
def process_folder (decode : String → Option JVal) (strptime : String → Option PyDatetime)
    (oracle : String → FetchEnv) (do_exif : Bool) (output_root : String)
    (js_files : List (Option String)) (w0 : World) :
    Except PyErr (ProcessStats × World × List (Nat × Nat)) :=
  processFiles decode strptime oracle do_exif output_root js_files.length 0 js_files w0 {} []

/-! ### Spec-side measures for the run-level claims -/

/-- Number of fetch attempts a single record contributes: the size of
its extracted URL set when the record reaches the URL loop, zero when
the record is skipped for a bad date.  (Shapes that raise never yield
statistics; the run-level theorems are conditioned on a clean run.) -/
def itemAttempts (strptime : String → Option PyDatetime) (item : JVal) : Nat :=
  match item with
  | .jobj fields =>
    match jGet fields "posted" (.jstr "") with
    | .jstr posted =>
      match strptime posted with
      | none => 0
      | some _ =>
        match asStr (pyOrEmpty (jGet fields "content" (.jstr ""))),
              asStr (pyOrEmpty (jGet fields "content_raw" (.jstr ""))) with
        | some c1, some c2 => (get_all_valid_images (c1 ++ " " ++ c2)).length
        | _, _ => 0
    | _ => 0
  | _ => 0

/-- Fetch attempts contributed by one backup file. -/
def fileAttempts (decode : String → Option JVal) (strptime : String → Option PyDatetime)
    (fc : Option String) : Nat :=
  ((parse_js_content decode fc).map (itemAttempts strptime)).sum

/-- Fetch attempts contributed by a whole run. -/
def runAttempts (decode : String → Option JVal) (strptime : String → Option PyDatetime)
    (js_files : List (Option String)) : Nat :=
  (js_files.map (fileAttempts decode strptime)).sum

/-- The `on_progress` invocations a clean run actually performs:
one call `(file_index + 1, total)` per enumerated file whose parse
yielded at least one record, in enumeration order. -/
def expectedProgress (decode : String → Option JVal) (total : Nat) :
    Nat → List (Option String) → List (Nat × Nat)
  | _, [] => []
  | idx, fc :: rest =>
    if (parse_js_content decode fc).isEmpty then
      expectedProgress decode total (idx + 1) rest
    else
      (idx + 1, total) :: expectedProgress decode total (idx + 1) rest

/-- Whether a decoded JSON value is an array. -/
def jIsArr : JVal → Bool
  | .jarr _ => true
  | _ => false

/-- The HTTP-layer answers on which `download_image` records a failure
against the origin: any non-200 status (429 included) and the
transport exceptions.  An undersized 200 body and a local write error
are deliberately not among them. -/
def isCountedFailure : HttpResponse → Bool
  | .status c _ => c != 200
  | .timeoutErr => true
  | .connErr => true
  | .otherErr => true

/-! ## Helper lemmas -/

/-- Every branch of `download_image` sets exactly one of
`downloaded`, `skipped`, `failed`. -/
theorem download_image_card (url folder : String) (dx : Bool) (env : FetchEnv)
    (w : World) :
    ((download_image url folder dx env w).result.downloaded.toNat +
     (download_image url folder dx env w).result.skipped.toNat +
     (download_image url folder dx env w).result.failed.toNat) = 1 := by
  simp only [download_image]
  repeat' split
  all_goals rfl

/-- When exactly one outcome flag is set, the statistics update adds
exactly one to `downloaded + skipped + failed`. -/
theorem bumpStats_sum (r : DownloadResult) (st : ProcessStats)
    (h : r.downloaded.toNat + r.skipped.toNat + r.failed.toNat = 1) :
    (bumpStats r st).downloaded + (bumpStats r st).skipped + (bumpStats r st).failed =
      st.downloaded + st.skipped + st.failed + 1 := by
  cases hd : r.downloaded <;> cases hs : r.skipped <;> cases hf : r.failed <;>
    cases he : r.exif_updated <;>
    simp [bumpStats, hd, hs, hf, he] at h ⊢ <;> omega

/-- The URL loop adds exactly the number of URLs to the outcome sum. -/
theorem fetchUrls_sum (oracle : String → FetchEnv) (dx : Bool) (folder : String) :
    ∀ (urls : List String) (w : World) (st : ProcessStats),
      (fetchUrls oracle dx folder urls w st).1.downloaded +
      (fetchUrls oracle dx folder urls w st).1.skipped +
      (fetchUrls oracle dx folder urls w st).1.failed =
      st.downloaded + st.skipped + st.failed + urls.length := by
  intro urls
  induction urls with
  | nil => intro w st; simp [fetchUrls]
  | cons url rest ih =>
    intro w st
    simp only [fetchUrls]
    rw [ih]
    rw [bumpStats_sum _ _ (download_image_card url folder dx (oracle url) w)]
    simp [List.length_cons]
    omega

/-- A record that completes without raising adds exactly its attempt
count to the outcome sum. -/
theorem processItem_sum (strptime : String → Option PyDatetime)
    (oracle : String → FetchEnv) (dx : Bool) (root : String) (item : JVal)
    (w : World) (st : ProcessStats) (st1 : ProcessStats) (w1 : World)
    (h : processItem strptime oracle dx root item w st = .ok (st1, w1)) :
    st1.downloaded + st1.skipped + st1.failed =
      st.downloaded + st.skipped + st.failed + itemAttempts strptime item := by
  cases item with
  | jobj fields =>
    cases hp : jGet fields "posted" (.jstr "") with
    | jstr posted =>
      cases hs : strptime posted with
      | none =>
        simp only [processItem, hp, hs] at h
        cases h
        simp [itemAttempts, hp, hs]
      | some dt =>
        cases hc1 : asStr (pyOrEmpty (jGet fields "content" (.jstr ""))) with
        | none => simp [processItem, hp, hs, hc1] at h
        | some c1 =>
          cases hc2 : asStr (pyOrEmpty (jGet fields "content_raw" (.jstr ""))) with
          | none => simp [processItem, hp, hs, hc1, hc2] at h
          | some c2 =>
            simp only [processItem, hp, hs, hc1, hc2] at h
            injection h with h2
            have hst := congrArg Prod.fst h2
            subst hst
            simp only [itemAttempts, hp, hs, hc1, hc2]
            exact fetchUrls_sum oracle dx (dateFolderName root dt)
              (get_all_valid_images (c1 ++ " " ++ c2)) w st
    | jnull => simp [processItem, hp] at h
    | jbool b => simp [processItem, hp] at h
    | jnum n => simp [processItem, hp] at h
    | jarr xs => simp [processItem, hp] at h
    | jobj f2 => simp [processItem, hp] at h
  | jnull => simp [processItem] at h
  | jbool b => simp [processItem] at h
  | jnum n => simp [processItem] at h
  | jstr s => simp [processItem] at h
  | jarr xs => simp [processItem] at h

/-- A record list that completes without raising adds exactly the sum
of its attempt counts. -/
theorem processItems_sum (strptime : String → Option PyDatetime)
    (oracle : String → FetchEnv) (dx : Bool) (root : String) :
    ∀ (items : List JVal) (w : World) (st : ProcessStats) (st1 : ProcessStats) (w1 : World),
      processItems strptime oracle dx root items w st = .ok (st1, w1) →
      st1.downloaded + st1.skipped + st1.failed =
        st.downloaded + st.skipped + st.failed + (items.map (itemAttempts strptime)).sum := by
  intro items
  induction items with
  | nil =>
    intro w st st1 w1 h
    simp only [processItems] at h
    cases h
    simp
  | cons item rest ih =>
    intro w st st1 w1 h
    simp only [processItems] at h
    cases hi : processItem strptime oracle dx root item w st with
    | error e => rw [hi] at h; simp at h
    | ok p =>
      rw [hi] at h
      obtain ⟨sti, wi⟩ := p
      have hstep := processItem_sum strptime oracle dx root item w st sti wi hi
      have htail := ih wi sti st1 w1 h
      simp [List.map_cons, List.sum_cons]
      omega

/-- The file loop adds exactly the per-file attempt counts. -/
theorem processFiles_sum (decode : String → Option JVal)
    (strptime : String → Option PyDatetime) (oracle : String → FetchEnv)
    (dx : Bool) (root : String) (total : Nat) :
    ∀ (l : List (Option String)) (idx : Nat) (w : World) (st : ProcessStats)
      (prog : List (Nat × Nat)) (out : ProcessStats × World × List (Nat × Nat)),
      processFiles decode strptime oracle dx root total idx l w st prog = .ok out →
      out.1.downloaded + out.1.skipped + out.1.failed =
        st.downloaded + st.skipped + st.failed +
          (l.map (fileAttempts decode strptime)).sum := by
  intro l
  induction l with
  | nil =>
    intro idx w st prog out h
    simp only [processFiles] at h
    cases h
    simp
  | cons fc rest ih =>
    intro idx w st prog out h
    simp only [processFiles] at h
    by_cases he : (parse_js_content decode fc).isEmpty
    · rw [if_pos he] at h
      have := ih (idx + 1) w st prog out h
      have hz : fileAttempts decode strptime fc = 0 := by
        unfold fileAttempts
        rw [List.isEmpty_iff.mp he]
        simp
      simp [hz]
      omega
    · rw [if_neg he] at h
      cases hi : processItems strptime oracle dx root (parse_js_content decode fc) w st with
      | error e => rw [hi] at h; simp at h
      | ok p =>
        rw [hi] at h
        obtain ⟨sti, wi⟩ := p
        have hstep := processItems_sum strptime oracle dx root
          (parse_js_content decode fc) w st sti wi hi
        have htail := ih (idx + 1) wi sti (prog ++ [(idx + 1, total)]) out h
        simp only [List.map_cons, List.sum_cons]
        unfold fileAttempts at *
        omega

/-- The file loop appends exactly the progress calls of the files
whose parse produced records. -/
theorem processFiles_prog (decode : String → Option JVal)
    (strptime : String → Option PyDatetime) (oracle : String → FetchEnv)
    (dx : Bool) (root : String) (total : Nat) :
    ∀ (l : List (Option String)) (idx : Nat) (w : World) (st : ProcessStats)
      (prog : List (Nat × Nat)) (out : ProcessStats × World × List (Nat × Nat)),
      processFiles decode strptime oracle dx root total idx l w st prog = .ok out →
      out.2.2 = prog ++ expectedProgress decode total idx l := by
  intro l
  induction l with
  | nil =>
    intro idx w st prog out h
    simp only [processFiles] at h
    cases h
    simp [expectedProgress]
  | cons fc rest ih =>
    intro idx w st prog out h
    simp only [processFiles] at h
    by_cases he : (parse_js_content decode fc).isEmpty
    · rw [if_pos he] at h
      rw [ih (idx + 1) w st prog out h]
      simp [expectedProgress, he]
    · rw [if_neg he] at h
      cases hi : processItems strptime oracle dx root (parse_js_content decode fc) w st with
      | error e => rw [hi] at h; simp at h
      | ok p =>
        rw [hi] at h
        obtain ⟨sti, wi⟩ := p
        rw [ih (idx + 1) wi sti (prog ++ [(idx + 1, total)]) out h]
        simp [expectedProgress, he]

/-- Replacing an existing key's value commutes with `find?`. -/
theorem dGet_map_set (m : List (String × Nat)) (k : String) (v : Nat) :
    (m.map (fun p => if p.1 == k then (k, v) else p)).find? (fun p => p.1 == k) =
      (m.find? (fun p => p.1 == k)).map (fun _ => (k, v)) := by
  induction m with
  | nil => rfl
  | cons p t ih =>
    by_cases h : p.1 == k
    · simp [List.find?, h]
    · simp only [List.map_cons]
      rw [if_neg h]
      have hb : (p.1 == k) = false := by simpa using h
      simp only [List.find?, hb]
      exact ih

/-- Reading back the key just written into the failure dictionary. -/
theorem dGet_dSet_self (m : List (String × Nat)) (k : String) (v : Nat) :
    dGet (dSet m k v) k = v := by
  unfold dSet
  by_cases hf : (m.find? (fun p => p.1 == k)).isSome
  · rw [if_pos hf]
    unfold dGet
    rw [dGet_map_set]
    cases hm : m.find? (fun p => p.1 == k) with
    | none => rw [hm] at hf; simp at hf
    | some p => simp
  · rw [if_neg hf]
    simp [dGet, List.find?]

/-- Every member of the extractor's fold either was in the
accumulator already or passes the exclusion chain. -/
theorem mem_foldl_addValid :
    ∀ (l : List String) (acc : List String) (u : String),
      u ∈ l.foldl addValid acc → u ∈ acc ∨ excludedUrl u = false := by
  intro l
  induction l with
  | nil => intro acc u h; exact Or.inl h
  | cons x t ih =>
    intro acc u h
    rcases ih (addValid acc x) u h with h1 | h2
    · unfold addValid at h1
      split_ifs at h1 with hx hc
      · exact Or.inl h1
      · exact Or.inl h1
      · rcases List.mem_append.mp h1 with ha | hb
        · exact Or.inl ha
        · right
          rw [List.mem_singleton.mp hb]
          simpa using hx
    · exact Or.inr h2

/-- The extractor's fold preserves freedom from duplicates: the
membership guard makes the result a set. -/
theorem nodup_foldl_addValid :
    ∀ (l : List String) (acc : List String), acc.Nodup → (l.foldl addValid acc).Nodup := by
  intro l
  induction l with
  | nil => intro acc h; exact h
  | cons x t ih =>
    intro acc h
    refine ih (addValid acc x) ?_
    unfold addValid
    split_ifs with hx hc
    · exact h
    · exact h
    · refine List.Nodup.append h (List.nodup_singleton x) ?_
      intro a ha hb
      rw [List.mem_singleton.mp hb] at ha
      exact absurd (by simpa using ha) (by simpa using hc)

/-- `splitAtFirst` fails exactly when the character is absent
(`str.find` returning `-1`). -/
theorem splitAtFirst_none_iff (ch : Char) :
    ∀ l : List Char, splitAtFirst ch l = none ↔ ch ∉ l := by
  intro l
  induction l with
  | nil => simp [splitAtFirst]
  | cons c t ih =>
    simp only [splitAtFirst]
    by_cases h : c == ch
    · rw [if_pos h]
      simp [List.mem_cons, (beq_iff_eq.mp h).symm]
    · rw [if_neg h]
      have hne : ch ≠ c := fun he => h (by simp [he])
      cases hs : splitAtFirst ch t with
      | none =>
        simp only [Option.map_none, true_iff, List.mem_cons]
        constructor
        · intro _ hmem
          rcases hmem with he | hm
          · exact hne he
          · exact (ih.mp hs) hm
        · intro _
          rfl
      | some p =>
        have hmem : ch ∈ t := by
          by_contra hm
          rw [ih.mpr hm] at hs
          cases hs
        simp [List.mem_cons, hmem]

/-- A file already present at the resolved path makes `download_image`
return `skipped` — with optional metadata repair — without touching the
state and without issuing a request, whatever the HTTP layer would
have answered. -/
theorem dl_exists_skip (url folder : String) (dx : Bool) (env : FetchEnv) (w : World)
    (h : w.files.contains (folder, fileNameOf url) = true) :
    download_image url folder dx env w =
      { result := { skipped := true, exif_updated := dx && env.exifResult },
        world := w, didRequest := false } := by
  have hm : (folder, fileNameOf url) ∈ w.files := by simpa using h
  simp [download_image, hm]

/-! ## Concrete inputs used by witnesses and counterexamples -/

/-- A `strptime` that rejects every string. -/
def strptimeNone : String → Option PyDatetime := fun _ => none

/-- An HTTP layer that always answers 200 with a 6000-byte body. -/
def oracleOk : String → FetchEnv := fun _ => ⟨.status 200 6000, true, false⟩

/-- A `json.loads` knowing exactly the payload `[5]`: a one-element
array whose sole record is the number 5, not an object. -/
def c3decode : String → Option JVal := fun s =>
  if s = "[5]" then some (.jarr [.jnum 5]) else none

/-- A `json.loads` knowing the payloads `[]` and `[{}]`. -/
def c9decode : String → Option JVal := fun s =>
  if s = "[]" then some (.jarr [])
  else if s = "[{}]" then some (.jarr [.jobj []])
  else none

/-- A `json.loads` knowing exactly the one-record payload used by the
claim C1 witness run. -/
def c1decode : String → Option JVal := fun s =>
  if s = "[\x7b\"posted\":\"P\",\"content\":\"see https://img.example.com/pic.jpg now\"\x7d]" then
    some (.jarr [.jobj [("posted", .jstr "P"),
      ("content", .jstr "see https://img.example.com/pic.jpg now")]])
  else none

/-- A `strptime` accepting exactly the timestamp string `"P"`. -/
def c1strptime : String → Option PyDatetime := fun s =>
  if s = "P" then some ⟨2024, 6, 3, 10, 15, 0⟩ else none

/-- The single backup file of the claim C1 witness run. -/
def c1files : List (Option String) :=
  [some "var B = [\x7b\"posted\":\"P\",\"content\":\"see https://img.example.com/pic.jpg now\"\x7d];"]

/-! ## Claims -/

/-- Claim C1: every `download_image` call sets exactly one of
`downloaded`, `skipped`, `failed`, and for every run that completes,
`downloaded + skipped + failed` equals the number of fetch attempts —
the extractor's output-set size summed over all processed records. -/
theorem claim1_outcome_partition_and_stats_sum :
    (∀ (url folder : String) (dx : Bool) (env : FetchEnv) (w : World),
      (download_image url folder dx env w).result.downloaded.toNat +
      (download_image url folder dx env w).result.skipped.toNat +
      (download_image url folder dx env w).result.failed.toNat = 1) ∧
    (∀ (decode : String → Option JVal) (strptime : String → Option PyDatetime)
       (oracle : String → FetchEnv) (dx : Bool) (root : String)
       (js : List (Option String)) (w0 : World)
       (out : ProcessStats × World × List (Nat × Nat)),
      process_folder decode strptime oracle dx root js w0 = .ok out →
      out.1.downloaded + out.1.skipped + out.1.failed = runAttempts decode strptime js) := by
  constructor
  · exact download_image_card
  · intro decode strptime oracle dx root js w0 out h
    have hs := processFiles_sum decode strptime oracle dx root js.length js 0 w0 {} [] out h
    simpa [runAttempts] using hs

/-- Claim C1 witness: a concrete one-file, one-record, one-URL run
completes with statistics `1 + 0 + 0` matching its attempt count. -/
theorem claim1_outcome_partition_and_stats_sum_witness :
    (1 : Nat) + 0 + 0 = runAttempts c1decode c1strptime c1files :=
  claim1_outcome_partition_and_stats_sum.2 c1decode c1strptime oracleOk false "out"
    c1files ⟨[], []⟩
    (⟨1, 0, 0, 0⟩, ⟨[("out/2024-06-03", "pic.jpg")], [("img.example.com", 0)]⟩, [(1, 1)])
    rfl

/-- Claim C2: an HTTP 200 response of exactly 5120 bytes yields
`skipped` with no metadata repair, no file written and no state
change; 5121 bytes (with the disk write succeeding) writes the file
and yields `downloaded` — the acceptance boundary is exclusive at
5120. -/
theorem claim2_size_boundary :
    ∀ (url folder : String) (dx wOk exifR : Bool) (w : World),
      w.files.contains (folder, fileNameOf url) = false →
      (download_image url folder dx ⟨.status 200 5120, wOk, exifR⟩ w =
        { result := { skipped := true }, world := w, didRequest := true }) ∧
      (download_image url folder dx ⟨.status 200 5121, true, exifR⟩ w =
        { result := { downloaded := true, exif_updated := dx && exifR },
          world := { files := (folder, fileNameOf url) :: w.files,
                     fail := record_success w.fail (extract_domain url) },
          didRequest := true }) := by
  intro url folder dx wOk exifR w h
  have hm : (folder, fileNameOf url) ∉ w.files := by simpa using h
  constructor <;> simp [download_image, hm, MIN_IMAGE_SIZE]

/-- Claim C2 witness: the boundary evaluated on a concrete URL against
an empty destination folder. -/
theorem claim2_size_boundary_witness :
    (download_image "https://img.example.com/pic.jpg" "d" false
      ⟨.status 200 5120, true, false⟩ ⟨[], []⟩).result.skipped = true ∧
    (download_image "https://img.example.com/pic.jpg" "d" false
      ⟨.status 200 5121, true, false⟩ ⟨[], []⟩).result.downloaded = true := by
  have h := claim2_size_boundary "https://img.example.com/pic.jpg" "d" false true false
    ⟨[], []⟩ (by decide)
  exact ⟨by rw [h.1], by rw [h.2]⟩

/-- Claim C3 (failing input): a backup file decoding to the array
`[5]` — a record that is not an object — makes the run raise
`AttributeError` out of `process_folder` instead of skipping the
malformed record, contradicting the parser's own "list of dicts"
contract and the spec's recovery taxonomy. -/
theorem claim3_nondict_record_raises :
    process_folder c3decode strptimeNone oracleOk false "out" [some "a=[5]"] ⟨[], []⟩ =
      .error .attributeErr := rfl

/-- Claim C4 (failing input): `https://i.ytimg.com/vi/a/mqdefault.jpg`
is matched as a candidate by the URL regex, yet the extractor's output
is empty: the substring test `"default.jpg" in low_url` also fires on
the larger `mqdefault` variant the source's own comment says is
preserved. -/
theorem claim4_larger_thumbnail_excluded :
    findall "https://i.ytimg.com/vi/a/mqdefault.jpg" =
      ["https://i.ytimg.com/vi/a/mqdefault.jpg"] ∧
    get_all_valid_images "https://i.ytimg.com/vi/a/mqdefault.jpg" = [] :=
  ⟨rfl, rfl⟩

/-- Claim C5: a `failed` outcome caused by a local disk-write error
leaves the failure dictionary untouched, and so does a `skipped`
outcome caused by an undersized (≤ 5120-byte) 200 body. -/
theorem claim5_backoff_exemption :
    ∀ (url folder : String) (dx exifR : Bool) (w : World) (n : Nat),
      w.files.contains (folder, fileNameOf url) = false →
      (n ≤ MIN_IMAGE_SIZE → ∀ wOk : Bool,
        (download_image url folder dx ⟨.status 200 n, wOk, exifR⟩ w).result.skipped = true ∧
        (download_image url folder dx ⟨.status 200 n, wOk, exifR⟩ w).world.fail = w.fail) ∧
      (MIN_IMAGE_SIZE < n →
        (download_image url folder dx ⟨.status 200 n, false, exifR⟩ w).result.failed = true ∧
        (download_image url folder dx ⟨.status 200 n, false, exifR⟩ w).world.fail = w.fail) := by
  intro url folder dx exifR w n h
  have hm : (folder, fileNameOf url) ∉ w.files := by simpa using h
  constructor
  · intro hn wOk
    constructor <;> simp [download_image, hm, hn]
  · intro hn
    have hn2 := Nat.not_le.mpr hn
    constructor <;> simp [download_image, hm, hn2]

/-- Claim C5 witness: a 100-byte body and a failed write both leave a
concrete failure dictionary exactly as it was. -/
theorem claim5_backoff_exemption_witness :
    ((download_image "https://img.example.com/small.jpg" "d" false
        ⟨.status 200 100, true, false⟩ ⟨[], [("img.example.com", 2)]⟩).world.fail =
      [("img.example.com", 2)]) ∧
    ((download_image "https://img.example.com/big.jpg" "d" false
        ⟨.status 200 9000, false, false⟩ ⟨[], [("img.example.com", 2)]⟩).world.fail =
      [("img.example.com", 2)]) := by
  have h := claim5_backoff_exemption "https://img.example.com/small.jpg" "d" false false
    ⟨[], [("img.example.com", 2)]⟩ 100 (by decide)
  have h2 := claim5_backoff_exemption "https://img.example.com/big.jpg" "d" false false
    ⟨[], [("img.example.com", 2)]⟩ 9000 (by decide)
  exact ⟨(h.1 (by decide) true).2, (h2.2 (by decide)).2⟩

/-- Claim C6 counterexample: two URLs differing only in scheme map to
the same failure-tracker key, so they share one counter — the claimed
scheme+host keying would give them distinct counters. -/
theorem claim6_scheme_shares_counter :
    "http://images.plurk.com/a.jpg" ≠ "https://images.plurk.com/a.jpg" ∧
    extract_domain "http://images.plurk.com/a.jpg" =
      extract_domain "https://images.plurk.com/a.jpg" :=
  ⟨by decide, rfl⟩

/-- Claim C6 as amended: the counter is keyed by the URL's netloc
(host and optional port, scheme excluded — the key is invariant under
swapping `http` for `https`); every counted failure increments the
origin's counter by one, and a successful download resets it to
zero. -/
theorem claim6_netloc_counter :
    (∀ rest : String,
      extract_domain ("http://" ++ rest) = extract_domain ("https://" ++ rest)) ∧
    (∀ (url folder : String) (dx : Bool) (env : FetchEnv) (w : World),
      w.files.contains (folder, fileNameOf url) = false →
      isCountedFailure env.http = true →
      dGet (download_image url folder dx env w).world.fail (extract_domain url) =
        dGet w.fail (extract_domain url) + 1) ∧
    (∀ (url folder : String) (dx exifR : Bool) (w : World) (n : Nat),
      w.files.contains (folder, fileNameOf url) = false → MIN_IMAGE_SIZE < n →
      dGet (download_image url folder dx ⟨.status 200 n, true, exifR⟩ w).world.fail
        (extract_domain url) = 0) := by
  refine ⟨fun rest => rfl, ?_, ?_⟩
  · intro url folder dx env w h hcf
    have hm : (folder, fileNameOf url) ∉ w.files := by simpa using h
    cases henv : env.http with
    | status c b =>
      rw [henv] at hcf
      have hc200 : ¬ c = 200 := by simpa [isCountedFailure] using hcf
      by_cases h429 : c = 429
      · subst h429
        simp [download_image, hm, henv]
        exact dGet_dSet_self w.fail (extract_domain url) (dGet w.fail (extract_domain url) + 1)
      · simp [download_image, hm, henv, h429, hc200, record_failure]
        exact dGet_dSet_self w.fail (extract_domain url) (dGet w.fail (extract_domain url) + 1)
    | timeoutErr =>
      simp [download_image, hm, henv, record_failure]
      exact dGet_dSet_self w.fail (extract_domain url) (dGet w.fail (extract_domain url) + 1)
    | connErr =>
      simp [download_image, hm, henv, record_failure]
      exact dGet_dSet_self w.fail (extract_domain url) (dGet w.fail (extract_domain url) + 1)
    | otherErr =>
      simp [download_image, hm, henv, record_failure]
      exact dGet_dSet_self w.fail (extract_domain url) (dGet w.fail (extract_domain url) + 1)
  · intro url folder dx exifR w n h hn
    have hm : (folder, fileNameOf url) ∉ w.files := by simpa using h
    have hn2 := Nat.not_le.mpr hn
    simp [download_image, hm, hn2, record_success]
    exact dGet_dSet_self w.fail (extract_domain url) 0

/-- Claim C6 witness: a 404 on a fresh origin takes its counter from
zero to one. -/
theorem claim6_netloc_counter_witness :
    dGet (download_image "http://a.com/x.jpg" "d" false ⟨.status 404 0, true, true⟩
      ⟨[], []⟩).world.fail (extract_domain "http://a.com/x.jpg") = 1 := by
  have h := claim6_netloc_counter.2.1 "http://a.com/x.jpg" "d" false
    ⟨.status 404 0, true, true⟩ ⟨[], []⟩ (by decide) (by decide)
  rw [h]
  decide

/-- Claim C7: the parser returns an empty sequence — it is a total
function, so it never raises — when the file is unreadable, when the
stripped text has no `=`, when decoding the text after the first `=`
(one trailing `;` stripped) fails, or when the decoded value is not an
array; otherwise it returns the decoded array's elements. -/
theorem claim7_parser_total :
    ∀ (decode : String → Option JVal) (fc : Option String),
      (fc = none → parse_js_content decode fc = []) ∧
      (∀ raw, fc = some raw →
        (jsonPartOf raw = none ↔ '=' ∉ pyStripList raw.toList) ∧
        (jsonPartOf raw = none → parse_js_content decode fc = []) ∧
        (∀ jp, jsonPartOf raw = some jp →
          (decode jp = none → parse_js_content decode fc = []) ∧
          (∀ v, decode jp = some v →
            (jIsArr v = false → parse_js_content decode fc = []) ∧
            (∀ xs, v = .jarr xs → parse_js_content decode fc = xs)))) := by
  intro decode fc
  constructor
  · intro h
    rw [h]
    rfl
  · intro raw hraw
    subst hraw
    refine ⟨?_, ?_, ?_⟩
    · cases hs : splitAtFirst '=' (pyStripList raw.toList) with
      | none =>
        have hnm := (splitAtFirst_none_iff '=' (pyStripList raw.toList)).mp hs
        simp only [jsonPartOf, hs]
        exact iff_of_true trivial hnm
      | some p =>
        have hmem : '=' ∈ pyStripList raw.toList := by
          by_contra hm
          rw [(splitAtFirst_none_iff '=' (pyStripList raw.toList)).mpr hm] at hs
          cases hs
        simp only [jsonPartOf, hs]
        exact iff_of_false (fun h0 => Option.noConfusion h0) (fun h0 => h0 hmem)
    · intro hnone
      simp [parse_js_content, hnone]
    · intro jp hjp
      refine ⟨?_, ?_⟩
      · intro hdec
        simp [parse_js_content, hjp, hdec]
      · intro v hdec
        refine ⟨?_, ?_⟩
        · intro hnarr
          cases v with
          | jarr xs => simp [jIsArr] at hnarr
          | jnull => simp [parse_js_content, hjp, hdec]
          | jbool b => simp [parse_js_content, hjp, hdec]
          | jnum n => simp [parse_js_content, hjp, hdec]
          | jstr s => simp [parse_js_content, hjp, hdec]
          | jobj f => simp [parse_js_content, hjp, hdec]
        · intro xs hv
          subst hv
          simp [parse_js_content, hjp, hdec]

/-- Claim C7 witness: the happy path on a concrete file decoding to
the array `[5]` returns that array's elements. -/
theorem claim7_parser_total_witness :
    parse_js_content c3decode (some "a=[5]") = [.jnum 5] :=
  ((((claim7_parser_total c3decode (some "a=[5]")).2 "a=[5]" rfl).2.2 "[5]" rfl).2
    (.jarr [.jnum 5]) rfl).2 [.jnum 5] rfl

/-- Claim C8 counterexample: `https://images.plurk.com/MX_a.jpg` sits
on the image CDN and its lowercased form matches the official-sticker
pattern, yet it is present in the extractor's output — the sticker
regex is applied to the original URL, case-sensitively, not to the
lowercased form. -/
theorem claim8_sticker_rule_not_lowercased :
    get_all_valid_images "https://images.plurk.com/MX_a.jpg" =
      ["https://images.plurk.com/MX_a.jpg"] ∧
    isSubstr "images.plurk.com" (lowerStr "https://images.plurk.com/MX_a.jpg") = true ∧
    isSubstr "https://images.plurk.com/mx_"
      (lowerStr "https://images.plurk.com/MX_a.jpg") = true :=
  ⟨rfl, rfl, rfl⟩

/-- Claim C8 as amended: for every input text, no member of the output
set touches the avatar CDN, the UI-chrome CDN or the tiered emoticon
path in its lowercased form, and no member on the image CDN contains
the official-sticker literal `https://images.plurk.com/mx_` in its
original (case-sensitive) form; empty input yields the empty set, and
the output is duplicate-free however often a URL occurs in the
text. -/
theorem claim8_exclusions :
    (∀ text url, url ∈ get_all_valid_images text →
      isSubstr "avatars.plurk.com" (lowerStr url) = false ∧
      isSubstr "emos.plurk.com" (lowerStr url) = false ∧
      isSubstr "static.plurk.com" (lowerStr url) = false ∧
      isSubstr "s.plurk.com/emoticons" (lowerStr url) = false ∧
      (isSubstr "images.plurk.com" (lowerStr url) = true →
        isSubstr "https://images.plurk.com/mx_" url = false)) ∧
    get_all_valid_images "" = [] ∧
    (∀ text, (get_all_valid_images text).Nodup) := by
  refine ⟨?_, rfl, ?_⟩
  · intro text url h
    have hex : excludedUrl url = false := by
      unfold get_all_valid_images at h
      split_ifs at h with ht
      · exact absurd h (List.not_mem_nil url)
      · rcases mem_foldl_addValid _ [] url h with h0 | h0
        · exact absurd h0 (List.not_mem_nil url)
        · exact h0
    simp only [excludedUrl] at hex
    simp at hex
    obtain ⟨⟨⟨⟨⟨⟨h1, h2⟩, h3⟩, h4⟩, h5⟩, h6⟩, h7⟩ := hex
    exact ⟨h3, h1, h2, h4, h7⟩
  · intro text
    unfold get_all_valid_images
    split_ifs
    · exact List.nodup_nil
    · exact nodup_foldl_addValid _ [] List.nodup_nil

/-- Claim C8 witness: a kept URL on the image CDN evaluated through
the amended exclusion theorem. -/
theorem claim8_exclusions_witness :
    isSubstr "avatars.plurk.com" (lowerStr "https://images.plurk.com/ok.jpg") = false :=
  (claim8_exclusions.1 "https://images.plurk.com/ok.jpg" "https://images.plurk.com/ok.jpg"
    (by decide)).1

/-- Claim C9 counterexample: a run over one enumerated file whose
parse yields no records completes with zero `on_progress`
invocations, so `on_progress` is not called once per enumerated file
and no final `(1, 1)` call happens. -/
theorem claim9_empty_file_no_progress :
    process_folder c9decode strptimeNone oracleOk false "out" [some "a=[]"] ⟨[], []⟩ =
      .ok ({}, ⟨[], []⟩, []) ∧
    [some "a=[]"].length = 1 ∧ ([] : List (Nat × Nat)) ≠ [(1, 1)] :=
  ⟨rfl, rfl, by simp⟩

/-- Claim C9 as amended: in every run that completes, the
`on_progress` invocations are exactly one call
`(file_index + 1, files_total)` per enumerated file whose parse
yielded at least one record, in order; files parsing to an empty
record sequence are skipped before the progress report. -/
theorem claim9_progress_calls :
    ∀ (decode : String → Option JVal) (strptime : String → Option PyDatetime)
      (oracle : String → FetchEnv) (dx : Bool) (root : String)
      (js : List (Option String)) (w0 : World)
      (out : ProcessStats × World × List (Nat × Nat)),
      process_folder decode strptime oracle dx root js w0 = .ok out →
      out.2.2 = expectedProgress decode js.length 0 js := by
  intro decode strptime oracle dx root js w0 out h
  have hp := processFiles_prog decode strptime oracle dx root js.length js 0 w0 {} [] out h
  simpa using hp

/-- Claim C9 witness: a two-file run whose first file parses empty
reports progress only for the second file. -/
theorem claim9_progress_calls_witness :
    ([(2, 2)] : List (Nat × Nat)) =
      expectedProgress c9decode 2 0 [some "a=[]", some "b=[{}]"] :=
  claim9_progress_calls c9decode strptimeNone oracleOk false "out"
    [some "a=[]", some "b=[{}]"] ⟨[], []⟩ ({}, ⟨[], []⟩, [(2, 2)]) rfl

/-- Claim C10: the local filename is the URL's last path segment with
the query string removed, the skip-if-exists check consults only that
resolved path (returning `skipped` without any HTTP request for every
possible HTTP answer), and two distinct URLs sharing a final segment
and a date folder leave at most one file on disk, the later call
reported `skipped`. -/
theorem claim10_filename_collision :
    (∀ (url folder : String) (dx : Bool) (env : FetchEnv) (w : World),
      w.files.contains (folder, fileNameOf url) = true →
      download_image url folder dx env w =
        { result := { skipped := true, exif_updated := dx && env.exifResult },
          world := w, didRequest := false }) ∧
    (∀ (url1 url2 folder : String) (dx exifR : Bool) (env2 : FetchEnv)
       (w : World) (n : Nat),
      url1 ≠ url2 → fileNameOf url1 = fileNameOf url2 →
      w.files.contains (folder, fileNameOf url1) = false → MIN_IMAGE_SIZE < n →
      (download_image url1 folder dx ⟨.status 200 n, true, exifR⟩ w).result.downloaded
        = true ∧
      (download_image url2 folder dx env2
        (download_image url1 folder dx ⟨.status 200 n, true, exifR⟩ w).world).result.skipped
        = true ∧
      (download_image url2 folder dx env2
        (download_image url1 folder dx ⟨.status 200 n, true, exifR⟩ w).world).didRequest
        = false ∧
      (download_image url2 folder dx env2
        (download_image url1 folder dx ⟨.status 200 n, true, exifR⟩ w).world).world =
        (download_image url1 folder dx ⟨.status 200 n, true, exifR⟩ w).world) := by
  constructor
  · exact dl_exists_skip
  · intro url1 url2 folder dx exifR env2 w n hne hname h hn
    have hm : (folder, fileNameOf url1) ∉ w.files := by simpa using h
    have hn2 := Nat.not_le.mpr hn
    have h1 : download_image url1 folder dx ⟨.status 200 n, true, exifR⟩ w =
        { result := { downloaded := true, exif_updated := dx && exifR },
          world := { files := (folder, fileNameOf url1) :: w.files,
                     fail := record_success w.fail (extract_domain url1) },
          didRequest := true } := by
      simp [download_image, hm, hn2]
    have hc : ((download_image url1 folder dx ⟨.status 200 n, true, exifR⟩ w).world).files.contains
        (folder, fileNameOf url2) = true := by
      rw [h1, ← hname]
      simp
    have h2 := dl_exists_skip url2 folder dx env2
      (download_image url1 folder dx ⟨.status 200 n, true, exifR⟩ w).world hc
    refine ⟨by rw [h1], by rw [h2], by rw [h2], by rw [h2]⟩

/-- Claim C10 witness: `.../one/pic.jpg?x=1` then `.../two/pic.jpg`
into the same folder — the second call is skipped with no request. -/
theorem claim10_filename_collision_witness :
    (download_image "https://b.example/two/pic.jpg" "d" false ⟨.status 404 0, true, false⟩
      (download_image "https://a.example/one/pic.jpg?x=1" "d" false
        ⟨.status 200 6000, true, false⟩ ⟨[], []⟩).world).result.skipped = true ∧
    (download_image "https://b.example/two/pic.jpg" "d" false ⟨.status 404 0, true, false⟩
      (download_image "https://a.example/one/pic.jpg?x=1" "d" false
        ⟨.status 200 6000, true, false⟩ ⟨[], []⟩).world).didRequest = false := by
  have h := claim10_filename_collision.2 "https://a.example/one/pic.jpg?x=1"
    "https://b.example/two/pic.jpg" "d" false false ⟨.status 404 0, true, false⟩
    ⟨[], []⟩ 6000 (by decide) (by decide) (by decide) (by decide)
  exact ⟨h.2.1, h.2.2.1⟩

end PlurkBackup
